import Mathlib

/-!
Shallow embedding of the interaction-weighted preference scoring and
recommendation-gateway subsystem of the odini mobile app
(src/unnamed/part_004: the event service, the listing service and the
recommendation gateway).  Storage tables are modelled as in-memory data,
storage failures as explicit outcome flags, and JavaScript numbers as
rationals.
-/

/-- Row of the event_ratings table: id, user_id, event_id, rating, comment. -/
structure RatingRow where
  id : Nat
  user_id : String
  event_id : String
  rating : Rat
  comment : Option String
deriving Repr, DecidableEq

/-- Row of the events table; tags is a nullable text array, category a
nullable text column. -/
structure EventRow where
  id : String
  tags : Option (List String)
  category : Option String
deriving Repr, DecidableEq

/-- Row of the user_trips table. -/
structure TripRow where
  user_id : String
  event_id : String
  trip_id : Option String
deriving Repr, DecidableEq

/-- The storage state seen by the event service.  The user_preferences table
has a unique constraint on (user_id, tag), so it is modelled as a map from
(user, tag) to an optional score.  The boolean flags model the outcome the storage
layer gives to the corresponding write (false = the write succeeds). -/
structure DB where
  events : List EventRow
  event_ratings : List RatingRow
  user_preferences : String → String → Option Rat
  user_trips : List TripRow
  nextRatingId : Nat
  currentUser : Option String
  prefsUpsertFails : Bool
  ratingWriteFails : Bool
  tripInsertFails : Bool

/-- Score currently recorded for (user, tag), read as 0 when no row exists:
this is the `existing?.score ?? 0` read in updateUserPreferences. -/
def prefScore (db : DB) (userId tag : String) : Rat :=
  (db.user_preferences userId tag).getD 0

/-- One iteration of the tag loop of updateUserPreferences: fetch the
existing row, take its score (0 when absent), add the delta, and upsert the
row keyed by (user_id, tag). -/
def upsertPreference (db : DB) (userId tag : String) (delta : Rat) : DB :=
  let currentScore : Rat := (db.user_preferences userId tag).getD 0
  let newScore : Rat := currentScore + delta
  { db with user_preferences := fun u t =>
      if u = userId ∧ t = tag then some newScore else db.user_preferences u t }

/-- Function updateUserPreferences(userId, tags, delta): rejects a falsy
userId, returns early on an empty tag list, and otherwise runs the
read-add-upsert loop once per tag; a failing upsert throws. -/
def updateUserPreferences (userId : String) (tags : List String) (delta : Rat)
    (db : DB) : DB × Except String Unit :=
  if userId = "" then (db, .error "userId required")
  else if tags.isEmpty then (db, .ok ())
  else if db.prefsUpsertFails then (db, .error "preference upsert failed")
  else (tags.foldl (fun d tag => upsertPreference d userId tag delta) db, .ok ())

/-- A sequence of applyDelta calls for one (user, tag) key, one call per
delta in the list. -/
def applyDeltaSeq (userId tag : String) (deltas : List Rat) (db : DB) : DB :=
  deltas.foldl (fun d delta => (updateUserPreferences userId [tag] delta d).1) db

/-- Function computePreferenceDelta(rating, weight): center the rating
around 3 and scale, delta = (rating - 3.0) * weight. -/
def computePreferenceDelta (rating : Rat) (weight : Rat) : Rat :=
  (rating - 3) * weight

/-- Resolution `const uid = userId || (await getCurrentUserId())` followed by
the falsy check `if (!uid) throw`: an empty or missing caller id falls back
to the session user, and a still-falsy result is rejected. -/
def resolveUser (userId : Option String) (current : Option String) : Option String :=
  let uid := match userId with
    | some s => if s = "" then current.getD "" else s
    | none => current.getD ""
  if uid = "" then none else some uid

/-- Predicate picking the rating rows of one (user, event) pair. -/
def pairMatch (u t : String) (r : RatingRow) : Bool :=
  r.user_id == u && r.event_id == t

/-- Number of rating rows stored for the (user, event) pair. -/
def pairCount (l : List RatingRow) (u t : String) : Nat :=
  l.countP (pairMatch u t)

/-- Rating values of the event_ratings sub-rows attached to one event by the
select with event_ratings(rating). -/
def ratingsFor (db : DB) (eventId : String) : List Rat :=
  (db.event_ratings.filter (fun r => r.event_id == eventId)).map (fun r => r.rating)

/-- Aggregation used by fetchEvents and getEventById:
ratings.length ? ratings.reduce((s, r) => s + Number(r.rating), 0) / ratings.length : null. -/
def eventAvgRating (ratings : List Rat) : Option Rat :=
  if ratings.length = 0 then none
  else some ((ratings.foldl (fun s r => s + r) 0) / (ratings.length : Rat))

/-- Event row decorated with avgRating and ratingsCount, the shape returned
by fetchEvents and getEventById. -/
structure EventStats where
  event : EventRow
  avgRating : Option Rat
  ratingsCount : Nat
deriving Repr, DecidableEq

/-- Function getEventById(eventId): single-row fetch of the event with its
rating sub-rows, decorated with avgRating and ratingsCount; a missing id or
a missing row throws. -/
def getEventById (db : DB) (eventId : String) : Except String EventStats :=
  if eventId = "" then .error "eventId is required"
  else
    match db.events.find? (fun e => e.id == eventId) with
    | none => .error "event not found"
    | some e =>
      let ratings := ratingsFor db eventId
      .ok { event := e, avgRating := eventAvgRating ratings,
            ratingsCount := ratings.length }

/-- Function fetchEvents: the post-query mapping that attaches avgRating and
ratingsCount to every event row the query returned (tag filtering,
pagination and ordering happen inside the storage query and do not change
the per-event statistics). -/
def fetchEvents (db : DB) : List EventStats :=
  db.events.map (fun e =>
    let ratings := ratingsFor db e.id
    { event := e, avgRating := eventAvgRating ratings,
      ratingsCount := ratings.length })

/-- Statistics fetchEvents and getEventById attach to an event row. -/
def statsOf (db : DB) (e : EventRow) : EventStats :=
  { event := e, avgRating := eventAvgRating (ratingsFor db e.id),
    ratingsCount := (ratingsFor db e.id).length }

/-- Fresh row written by the insert branch, keyed by the serial id the
store hands out. -/
def freshRatingRow (db : DB) (uid eventId : String) (rating : Rat)
    (comment : Option String) : RatingRow :=
  { id := db.nextRatingId, user_id := uid, event_id := eventId,
    rating := rating, comment := comment }

/-- Insert branch of the rating write: a fresh row keyed by the serial id. -/
def insertRatingRow (db : DB) (uid eventId : String) (rating : Rat)
    (comment : Option String) : DB :=
  { db with
    event_ratings := db.event_ratings ++ [freshRatingRow db uid eventId rating comment]
    nextRatingId := db.nextRatingId + 1 }

/-- Durable write of addRating: fetch the existing row of the (user, event)
pair and branch on the JavaScript test `existing && existing.id` — update
the row in place when the fetched id is truthy, insert otherwise.  Row ids
handed out by the store are the positive serials nextRatingId, so the id of
a stored row is never the falsy 0. -/
def upsertRatingRow (db : DB) (uid eventId : String) (rating : Rat)
    (comment : Option String) : DB :=
  match db.event_ratings.find? (pairMatch uid eventId) with
  | some e =>
    if e.id ≠ 0 then
      { db with event_ratings := db.event_ratings.map (fun r =>
          if r.id == e.id then { r with rating := rating, comment := comment }
          else r) }
    else insertRatingRow db uid eventId rating comment
  | none => insertRatingRow db uid eventId rating comment

/-- Steps of addRating after the durable rating write: fetch the event row
(its absence throws), derive the tags as `event.tags || (event.category ?
[event.category] : [])`, apply computePreferenceDelta(rating, 1.0) through
updateUserPreferences, and return getEventById. -/
def addRatingAfterWrite (db : DB) (uid eventId : String) (rating : Rat) :
    DB × Except String EventStats :=
  match db.events.find? (fun e => e.id == eventId) with
  | none => (db, .error "event fetch failed")
  | some event =>
    let tags := event.tags.getD (match event.category with
      | some c => [c]
      | none => [])
    let delta := computePreferenceDelta rating 1
    match updateUserPreferences uid tags delta db with
    | (db2, .error msg) => (db2, .error msg)
    | (db2, .ok _) => (db2, getEventById db2 eventId)

/-- Function addRating({userId, eventId, rating, comment}): reject a falsy
eventId or rating, resolve the caller, perform the durable create-or-update
of the rating row, then run the best-effort tail.  Any thrown error is
logged and rethrown by the surrounding catch. -/
def addRating (db : DB) (userId : Option String) (eventId : String)
    (rating : Rat) (comment : Option String) : DB × Except String EventStats :=
  if eventId = "" then (db, .error "eventId required")
  else if rating = 0 then (db, .error "rating required")
  else
    match resolveUser userId db.currentUser with
    | none => (db, .error "user not authenticated")
    | some uid =>
      if db.ratingWriteFails then (db, .error "rating write failed")
      else
        addRatingAfterWrite (upsertRatingRow db uid eventId rating comment)
          uid eventId rating

/-- Arguments of one addRating call. -/
structure RateCall where
  userId : Option String
  eventId : String
  rating : Rat
  comment : Option String

/-- State reached after a sequence of addRating calls. -/
def runRateCalls (db : DB) (calls : List RateCall) : DB :=
  calls.foldl (fun d c => (addRating d c.userId c.eventId c.rating c.comment).1) db

/-- Well-formedness of the ratings store: at most one row per (user, event)
pair, and ids are the nonzero serials the store hands out. -/
def ratingsInv (db : DB) : Prop :=
  (∀ u t, pairCount db.event_ratings u t ≤ 1)
  ∧ db.nextRatingId ≠ 0
  ∧ (∀ r ∈ db.event_ratings, r.id ≠ 0)

/-- Function addToTrip({userId, eventId, tripId}): reject a falsy eventId,
resolve the caller, insert the user_trips row (a failure throws), then give
the positive preference bump: fetch the event without an error check, derive
the tags, and apply the fixed delta 0.75 through updateUserPreferences. -/
def addToTrip (db : DB) (userId : Option String) (eventId : String)
    (tripId : Option String) : DB × Except String Bool :=
  if eventId = "" then (db, .error "eventId required")
  else
    match resolveUser userId db.currentUser with
    | none => (db, .error "user not authenticated")
    | some uid =>
      if db.tripInsertFails then (db, .error "trip insert failed")
      else
        let db1 := { db with user_trips := db.user_trips ++
          [{ user_id := uid, event_id := eventId, trip_id := tripId }] }
        let tags := match db1.events.find? (fun e => e.id == eventId) with
          | some e => e.tags.getD (match e.category with
              | some c => [c]
              | none => [])
          | none => []
        let delta : Rat := 3 / 4
        match updateUserPreferences uid tags delta db1 with
        | (db2, .error msg) => (db2, .error msg)
        | (db2, .ok _) => (db2, .ok true)

/-- Spec-side WeightPolicy table of section 4.1, stated there as one pure
lookup ("view=1, click=2, message=4, share=5, save=3, book=10,
swipe-left=-2, swipe-right=1"; a kind outside the table has no entry);
written out from the words of the spec so it can be compared with the
weights the InteractionService tracking methods hard-code. -/
def specWeightOf (kind : String) : Option Rat :=
  if kind = "view" then some 1
  else if kind = "click" then some 2
  else if kind = "message" then some 4
  else if kind = "share" then some 5
  else if kind = "save" then some 3
  else if kind = "book" then some 10
  else if kind = "swipe-left" then some (-2)
  else if kind = "swipe-right" then some 1
  else none

/-- Untyped JSON value, the runtime shape of an Edge Function response. -/
inductive JsonVal where
  | null
  | bool (b : Bool)
  | num (q : Rat)
  | str (s : String)
  | arr (elems : List JsonVal)
  | obj (fields : List (String × JsonVal))
deriving Repr

/-- Property access data.name on a JSON value: none models undefined. -/
def getField : JsonVal → String → Option JsonVal
  | .obj fields, name => (fields.find? (fun f => f.1 == name)).map (fun f => f.2)
  | _, _ => none

/-- Test Array.isArray. -/
def isArray : JsonVal → Bool
  | .arr _ => true
  | _ => false

/-- JavaScript truthiness of a JSON value. -/
def jsTruthy : JsonVal → Bool
  | .null => false
  | .bool b => b
  | .num q => !(q == 0)
  | .str s => !(s == "")
  | .arr _ => true
  | .obj _ => true

/-- Errors thrown by the gateway call, named by their message. -/
inductive GatewayError where
  | edgeFunctionError (msg : String)
  | noData
  | malformedResponse
deriving Repr, DecidableEq

/-- Outcome of supabase.functions.invoke: an error object or optional data. -/
structure InvokeResult where
  data : Option JsonVal
  error : Option String

/-- Method RecommendationService._callRecommendationFunction: throw on an
invoke error, on falsy data, and on a listings field that fails
Array.isArray; otherwise return the response unchanged. -/
def callRecommendationFunction (res : InvokeResult) : Except GatewayError JsonVal :=
  match res.error with
  | some msg => .error (.edgeFunctionError msg)
  | none =>
    match res.data with
    | none => .error .noData
    | some d =>
      if !jsTruthy d then .error .noData
      else if !(isArray ((getField d "listings").getD JsonVal.null)) then
        .error .malformedResponse
      else .ok d

/-- Method RecommendationService.getForYou: return response.listings of a
successful gateway call, and fall back to the empty list on any error. -/
def getForYou (res : InvokeResult) : List JsonVal :=
  match callRecommendationFunction res with
  | .ok d =>
    match getField d "listings" with
    | some (.arr cards) => cards
    | _ => []
  | .error _ => []

/-- Outcomes the storage and transport layer gives to the three calls made
by listingService.updateListingRating. -/
structure ListingEnv where
  ratingUpsertError : Option String
  avgRpcResult : Except String (Option Rat)
  invokeError : Option String

/-- Return shape of listingService.updateListingRating. -/
structure ListingRatingResult where
  success : Bool
  newAverage : Option Rat
deriving Repr, DecidableEq

/-- Method listingService.triggerRecommendationUpdate: invoke the
recommendations Edge Function and swallow every failure (the catch only
logs), so the call always returns normally. -/
def triggerRecommendationUpdate (env : ListingEnv) : Except String Unit :=
  match env.invokeError with
  | some _ => .ok ()
  | none => .ok ()

/-- Method listingService.updateListingRating: a failing rating upsert
throws into the surrounding catch which returns success false; a failing
average recomputation is logged and the call continues with an absent
average; the recommendation trigger swallows its own failures; otherwise
return success true with the recomputed average. -/
def updateListingRating (env : ListingEnv) : ListingRatingResult :=
  match env.ratingUpsertError with
  | some _ => { success := false, newAverage := none }
  | none =>
    let avgData : Option Rat := match env.avgRpcResult with
      | .error _ => none
      | .ok v => v
    match triggerRecommendationUpdate env with
    | .ok _ => { success := true, newAverage := avgData }
    | .error _ => { success := false, newAverage := none }

/-- Method RecommendationService.recordInteraction: fire-and-forget invoke
whose rejection is consumed by .catch and whose synchronous errors are
swallowed, so the call always returns normally. -/
def recordInteraction (invokeError : Option String) : Except String Unit :=
  match invokeError with
  | some _ => .ok ()
  | none => .ok ()

/-- Agreement of two states on every field except user_preferences. -/
def sameStores (a b : DB) : Prop :=
  a.events = b.events ∧ a.event_ratings = b.event_ratings ∧
  a.user_trips = b.user_trips ∧ a.nextRatingId = b.nextRatingId ∧
  a.currentUser = b.currentUser ∧ a.prefsUpsertFails = b.prefsUpsertFails ∧
  a.ratingWriteFails = b.ratingWriteFails ∧ a.tripInsertFails = b.tripInsertFails

/-- An initial storage state with no rows and all writes succeeding. -/
def emptyDB : DB :=
  { events := []
    event_ratings := []
    user_preferences := fun _ _ => none
    user_trips := []
    nextRatingId := 1
    currentUser := none
    prefsUpsertFails := false
    ratingWriteFails := false
    tripInsertFails := false }

/-- An event row e1 tagged music. -/
def eventE1 : EventRow :=
  { id := "e1", tags := some ["music"], category := none }

/-- A store holding one event e1 tagged music, with all writes succeeding. -/
def dbOneEvent : DB :=
  { emptyDB with events := [eventE1] }

/-- The same store with a failing user_preferences upsert. -/
def dbPrefsFail : DB :=
  { dbOneEvent with prefsUpsertFails := true }

/-- The same store with a failing rating write. -/
def dbWriteFail : DB :=
  { dbOneEvent with ratingWriteFails := true }

/-- A raw recommendation card that has no fields at all. -/
def rawCard : JsonVal := .obj []

/-- An engine response whose listings array holds the bare card. -/
def bareCardResponse : InvokeResult :=
  { data := some (.obj [("listings", .arr [rawCard])]), error := none }

/-- A raw card that carries only an id. -/
def idOnlyCard : JsonVal := .obj [("id", .str "L1")]

/-- An engine response whose listings array holds the id-only card. -/
def idCardResponse : InvokeResult :=
  { data := some (.obj [("listings", .arr [idOnlyCard])]), error := none }

/-- A listing-service environment where the durable upsert succeeds but both
best-effort calls fail. -/
def listingEnvBestEffortFail : ListingEnv :=
  { ratingUpsertError := none, avgRpcResult := .error "rpc failed",
    invokeError := some "network down" }

/-- A listing-service environment where the durable upsert itself fails. -/
def listingEnvUpsertFail : ListingEnv :=
  { ratingUpsertError := some "insert failed", avgRpcResult := .ok none,
    invokeError := none }

/-- Row of the user_interactions table written by
InteractionService._insertInteraction in src/services/interactionService.ts
(concatenated into src/src/config/supabaseClient.js). -/
structure UInteraction where
  user_id : String
  listing_id : String
  property_id : Option String
  interaction_type : String
  weight : Rat
  metadata : Option JsonVal
deriving Repr

/-- The interactions store with its insert outcome flag (false = the
insert succeeds). -/
structure IDB where
  user_interactions : List UInteraction
  insertFails : Bool

/-- Row built from one interaction payload, metadata read as
`metadata || null`. -/
def interactionRow (userId listingId : String) (propertyId : Option String)
    (interactionType : String) (weight : Rat) (metadata : Option JsonVal) :
    UInteraction :=
  { user_id := userId, listing_id := listingId, property_id := propertyId,
    interaction_type := interactionType, weight := weight, metadata := metadata }

/-- Method InteractionService._insertInteraction: insert the row into
user_interactions, returning false on a storage error and true otherwise;
the background recommendation refresh it then fires swallows every failure
and does not affect the returned value. -/
def insertInteraction (db : IDB) (userId listingId : String)
    (propertyId : Option String) (interactionType : String) (weight : Rat)
    (metadata : Option JsonVal) : IDB × Bool :=
  if db.insertFails then (db, false)
  else ({ db with user_interactions := db.user_interactions ++
    [interactionRow userId listingId propertyId interactionType weight metadata] },
    true)

/-- Method InteractionService.trackView: kind view with weight 1. -/
def trackView (db : IDB) (userId listingId : String)
    (propertyId : Option String) : IDB × Bool :=
  insertInteraction db userId listingId propertyId "view" 1 none

/-- Method InteractionService.trackSave: kind save with weight 3. -/
def trackSave (db : IDB) (userId listingId : String)
    (propertyId : Option String) : IDB × Bool :=
  insertInteraction db userId listingId propertyId "save" 3 none

/-- Method InteractionService.trackBooking: kind book with weight 10. -/
def trackBooking (db : IDB) (userId listingId : String)
    (propertyId : Option String) : IDB × Bool :=
  insertInteraction db userId listingId propertyId "book" 10 none

/-- Method InteractionService.trackSwipe: direction left gives kind
swipe_left with weight -2, any other direction gives kind swipe_right with
weight 1. -/
def trackSwipe (db : IDB) (userId listingId : String) (direction : String)
    (propertyId : Option String) : IDB × Bool :=
  let interactionType := if direction = "left" then "swipe_left" else "swipe_right"
  let weight : Rat := if direction = "left" then -2 else 1
  insertInteraction db userId listingId propertyId interactionType weight none

/-- Method InteractionService.trackClick: kind click with weight 2. -/
def trackClick (db : IDB) (userId listingId : String)
    (propertyId : Option String) : IDB × Bool :=
  insertInteraction db userId listingId propertyId "click" 2 none

/-- Method InteractionService.trackShare: kind share with weight 5. -/
def trackShare (db : IDB) (userId listingId : String)
    (propertyId : Option String) : IDB × Bool :=
  insertInteraction db userId listingId propertyId "share" 5 none

/-- Method InteractionService.trackMessage: kind message with weight 4. -/
def trackMessage (db : IDB) (userId listingId : String)
    (propertyId : Option String) : IDB × Bool :=
  insertInteraction db userId listingId propertyId "message" 4 none

/-- One payload of a trackBatch call: interaction type and weight are both
supplied by the caller. -/
structure BatchItem where
  userId : String
  listingId : String
  propertyId : Option String
  interactionType : String
  weight : Rat
  metadata : Option JsonVal

/-- Method InteractionService.trackBatch: insert every payload row as
given, returning false on a storage error and true otherwise; no weight
lookup or kind validation happens. -/
def trackBatch (db : IDB) (interactions : List BatchItem) : IDB × Bool :=
  if db.insertFails then (db, false)
  else ({ db with user_interactions := db.user_interactions ++
    interactions.map (fun i => interactionRow i.userId i.listingId
      i.propertyId i.interactionType i.weight i.metadata) }, true)

/-- The interactions store with no rows and inserts succeeding. -/
def emptyIDB : IDB :=
  { user_interactions := [], insertFails := false }

-- Basic lemmas about the preference ledger.

theorem upsertPreference_score_self (db : DB) (userId tag : String) (delta : Rat) :
    prefScore (upsertPreference db userId tag delta) userId tag
      = prefScore db userId tag + delta := by
  simp [prefScore, upsertPreference]

theorem upsertPreference_sameStores (db : DB) (userId tag : String) (delta : Rat) :
    sameStores (upsertPreference db userId tag delta) db :=
  ⟨rfl, rfl, rfl, rfl, rfl, rfl, rfl, rfl⟩

theorem sameStores_trans {a b c : DB} (h1 : sameStores a b) (h2 : sameStores b c) :
    sameStores a c :=
  ⟨h1.1.trans h2.1, h1.2.1.trans h2.2.1, h1.2.2.1.trans h2.2.2.1,
   h1.2.2.2.1.trans h2.2.2.2.1, h1.2.2.2.2.1.trans h2.2.2.2.2.1,
   h1.2.2.2.2.2.1.trans h2.2.2.2.2.2.1, h1.2.2.2.2.2.2.1.trans h2.2.2.2.2.2.2.1,
   h1.2.2.2.2.2.2.2.trans h2.2.2.2.2.2.2.2⟩

theorem sameStores_refl (a : DB) : sameStores a a :=
  ⟨rfl, rfl, rfl, rfl, rfl, rfl, rfl, rfl⟩

theorem foldl_upsertPreference_sameStores (userId : String) (tags : List String)
    (delta : Rat) (db : DB) :
    sameStores (tags.foldl (fun d tag => upsertPreference d userId tag delta) db) db := by
  induction tags generalizing db with
  | nil => exact sameStores_refl db
  | cons t ts ih =>
    exact sameStores_trans (ih (upsertPreference db userId t delta))
      (upsertPreference_sameStores db userId t delta)

theorem updateUserPreferences_sameStores (userId : String) (tags : List String)
    (delta : Rat) (db : DB) :
    sameStores (updateUserPreferences userId tags delta db).1 db := by
  unfold updateUserPreferences
  split
  · exact sameStores_refl db
  · split
    · exact sameStores_refl db
    · split
      · exact sameStores_refl db
      · exact foldl_upsertPreference_sameStores userId tags delta db

theorem updateUserPreferences_single (userId tag : String) (delta : Rat) (db : DB)
    (hu : userId ≠ "") (hp : db.prefsUpsertFails = false) :
    updateUserPreferences userId [tag] delta db
      = (upsertPreference db userId tag delta, .ok ()) := by
  simp [updateUserPreferences, hu, hp, List.foldl]

theorem applyDeltaSeq_score (userId tag : String) (deltas : List Rat) (db : DB)
    (hu : userId ≠ "") (hp : db.prefsUpsertFails = false) :
    prefScore (applyDeltaSeq userId tag deltas db) userId tag
      = prefScore db userId tag + deltas.sum := by
  induction deltas generalizing db with
  | nil => simp [applyDeltaSeq]
  | cons d ds ih =>
    have hstep : (updateUserPreferences userId [tag] d db).1
        = upsertPreference db userId tag d := by
      rw [updateUserPreferences_single userId tag d db hu hp]
    have hp2 : (upsertPreference db userId tag d).prefsUpsertFails = false :=
      (upsertPreference_sameStores db userId tag d).2.2.2.2.2.1.trans hp
    calc prefScore (applyDeltaSeq userId tag (d :: ds) db) userId tag
        = prefScore (applyDeltaSeq userId tag ds (upsertPreference db userId tag d)) userId tag := by
          simp [applyDeltaSeq, List.foldl, hstep]
      _ = prefScore (upsertPreference db userId tag d) userId tag + ds.sum :=
          ih (upsertPreference db userId tag d) hp2
      _ = prefScore db userId tag + d + ds.sum := by
          rw [upsertPreference_score_self]
      _ = prefScore db userId tag + (d :: ds).sum := by
          rw [List.sum_cons]; ring

/-- C1: for every user, tag and sequence of applyDelta calls with deltas
d_1..d_N, the final score of that (user, tag) key is the prior score plus
the sum of the deltas, and any permutation of the calls yields the same
final score. -/
theorem C1_applyDelta_additive_order_independent
    (db : DB) (userId tag : String) (ds ds' : List Rat)
    (hu : userId ≠ "") (hp : db.prefsUpsertFails = false) (hperm : ds.Perm ds') :
    prefScore (applyDeltaSeq userId tag ds db) userId tag
      = prefScore db userId tag + ds.sum
    ∧ prefScore (applyDeltaSeq userId tag ds' db) userId tag
      = prefScore (applyDeltaSeq userId tag ds db) userId tag := by
  constructor
  · exact applyDeltaSeq_score userId tag ds db hu hp
  · rw [applyDeltaSeq_score userId tag ds db hu hp,
      applyDeltaSeq_score userId tag ds' db hu hp, hperm.sum_eq]

/-- Witness for C1 at a concrete input: the deltas 1, 2, -4 applied for
(u1, music) starting from the empty store, against the permutation
-4, 1, 2. -/
theorem C1_applyDelta_additive_order_independent_witness :
    prefScore (applyDeltaSeq "u1" "music" [1, 2, -4] emptyDB) "u1" "music"
      = prefScore emptyDB "u1" "music" + ([1, 2, -4] : List Rat).sum
    ∧ prefScore (applyDeltaSeq "u1" "music" [-4, 1, 2] emptyDB) "u1" "music"
      = prefScore (applyDeltaSeq "u1" "music" [1, 2, -4] emptyDB) "u1" "music" :=
  C1_applyDelta_additive_order_independent emptyDB "u1" "music" [1, 2, -4] [-4, 1, 2]
    (by decide) rfl (by decide)

-- Lemmas about the rating upsert.

theorem countP_congr_mem {α : Type} (l : List α) (p q : α → Bool)
    (h : ∀ a ∈ l, p a = q a) : l.countP p = l.countP q := by
  induction l with
  | nil => rfl
  | cons x xs ih =>
    rw [List.countP_cons, List.countP_cons, h x (by simp),
      ih (fun a ha => h a (by simp [ha]))]

theorem pairMatch_update_invariant (u t : String) (i : Nat) (rt : Rat)
    (c : Option String) (x : RatingRow) :
    pairMatch u t (if x.id == i then { x with rating := rt, comment := c } else x)
      = pairMatch u t x := by
  by_cases h : x.id == i <;> simp [h, pairMatch]

theorem insertRatingRow_ratingsInv (db : DB) (uid evt : String) (rt : Rat)
    (c : Option String) (hinv : ratingsInv db)
    (hnone : ∀ a ∈ db.event_ratings, ¬ pairMatch uid evt a) :
    ratingsInv (insertRatingRow db uid evt rt c) := by
  obtain ⟨hcount, hnext, hids⟩ := hinv
  refine ⟨?_, Nat.succ_ne_zero _, ?_⟩
  · intro u t
    show List.countP (pairMatch u t)
      (db.event_ratings ++ [freshRatingRow db uid evt rt c]) ≤ 1
    rw [List.countP_append]
    by_cases hp : pairMatch u t (freshRatingRow db uid evt rt c)
    · have hzero : db.event_ratings.countP (pairMatch u t) = 0 := by
        apply List.countP_eq_zero.mpr
        intro a ha
        have huv : u = uid ∧ t = evt := by
          simp [pairMatch, freshRatingRow] at hp
          exact ⟨hp.1.symm, hp.2.symm⟩
        rw [huv.1, huv.2]
        exact hnone a ha
      simp [hzero, hp, List.countP_cons]
    · have hone : List.countP (pairMatch u t)
          [freshRatingRow db uid evt rt c] = 0 := by
        simp [List.countP_cons, hp]
      rw [hone]
      simpa using hcount u t
  · intro x hx
    rcases List.mem_append.mp hx with h | h
    · exact hids x h
    · have heq : x = freshRatingRow db uid evt rt c := by simpa using h
      rw [heq]
      exact hnext

theorem upsertRatingRow_ratingsInv (db : DB) (uid evt : String) (rt : Rat)
    (c : Option String) (hinv : ratingsInv db) :
    ratingsInv (upsertRatingRow db uid evt rt c) := by
  obtain ⟨hcount, hnext, hids⟩ := hinv
  cases hfind : db.event_ratings.find? (pairMatch uid evt) with
  | some e =>
    have hmem : e ∈ db.event_ratings := List.mem_of_find?_eq_some hfind
    have hne : e.id ≠ 0 := hids e hmem
    have hres : upsertRatingRow db uid evt rt c
        = { db with event_ratings := db.event_ratings.map (fun r =>
            if r.id == e.id then { r with rating := rt, comment := c }
            else r) } := by
      unfold upsertRatingRow
      rw [hfind]
      simp [hne]
    rw [hres]
    refine ⟨?_, hnext, ?_⟩
    · intro u t
      have hmap : pairCount (db.event_ratings.map (fun r =>
          if r.id == e.id then { r with rating := rt, comment := c } else r)) u t
          = pairCount db.event_ratings u t := by
        unfold pairCount
        rw [List.countP_map]
        exact countP_congr_mem db.event_ratings _ _
          (fun a _ => pairMatch_update_invariant u t e.id rt c a)
      exact hmap.le.trans (hcount u t)
    · intro x hx
      obtain ⟨y, hy, hyx⟩ := List.mem_map.mp hx
      have hid : x.id = y.id := by
        by_cases h : y.id == e.id <;> simp [h] at hyx <;> rw [← hyx]
      rw [hid]
      exact hids y hy
  | none =>
    have hres : upsertRatingRow db uid evt rt c
        = insertRatingRow db uid evt rt c := by
      unfold upsertRatingRow
      rw [hfind]
    rw [hres]
    exact insertRatingRow_ratingsInv db uid evt rt c ⟨hcount, hnext, hids⟩
      (List.find?_eq_none.mp hfind)

theorem ratingsInv_of_sameStores {a b : DB} (h : sameStores a b)
    (hb : ratingsInv b) : ratingsInv a := by
  obtain ⟨-, he, -, hn, -⟩ := h
  refine ⟨fun u t => by rw [he]; exact hb.1 u t, by rw [hn]; exact hb.2.1, ?_⟩
  intro r hr
  rw [he] at hr
  exact hb.2.2 r hr

theorem addRatingAfterWrite_sameStores (db : DB) (uid evt : String) (rt : Rat) :
    sameStores (addRatingAfterWrite db uid evt rt).1 db := by
  unfold addRatingAfterWrite
  cases hfind : db.events.find? (fun e => e.id == evt) with
  | none => exact sameStores_refl db
  | some event =>
    simp only []
    cases hupd : updateUserPreferences uid
        (event.tags.getD (match event.category with
          | some c => [c]
          | none => [])) (computePreferenceDelta rt 1) db with
    | mk db2 out =>
      have h2 : sameStores db2 db := by
        have := updateUserPreferences_sameStores uid
          (event.tags.getD (match event.category with
            | some c => [c]
            | none => [])) (computePreferenceDelta rt 1) db
        rw [hupd] at this
        exact this
      cases out with
      | error msg => exact h2
      | ok v => exact h2

theorem addRating_preserves_ratingsInv (db : DB) (userId : Option String)
    (evt : String) (rt : Rat) (c : Option String) (hinv : ratingsInv db) :
    ratingsInv (addRating db userId evt rt c).1 := by
  unfold addRating
  split
  · exact hinv
  · split
    · exact hinv
    · cases hres : resolveUser userId db.currentUser with
      | none => exact hinv
      | some uid =>
        simp only []
        split
        · exact hinv
        · exact ratingsInv_of_sameStores
            (addRatingAfterWrite_sameStores (upsertRatingRow db uid evt rt c) uid evt rt)
            (upsertRatingRow_ratingsInv db uid evt rt c hinv)

theorem runRateCalls_ratingsInv (calls : List RateCall) (db : DB)
    (hinv : ratingsInv db) : ratingsInv (runRateCalls db calls) := by
  induction calls generalizing db with
  | nil => exact hinv
  | cons c cs ih =>
    exact ih (addRating db c.userId c.eventId c.rating c.comment).1
      (addRating_preserves_ratingsInv db c.userId c.eventId c.rating c.comment hinv)

theorem upsertRatingRow_ratingWriteFails (db : DB) (uid evt : String) (rt : Rat)
    (c : Option String) :
    (upsertRatingRow db uid evt rt c).ratingWriteFails = db.ratingWriteFails := by
  unfold upsertRatingRow insertRatingRow
  split
  · split <;> rfl
  · rfl

theorem upsertRatingRow_nextRatingId_ne_zero (db : DB) (uid evt : String) (rt : Rat)
    (c : Option String) (hn : db.nextRatingId ≠ 0) :
    (upsertRatingRow db uid evt rt c).nextRatingId ≠ 0 := by
  unfold upsertRatingRow insertRatingRow
  split
  · split
    · exact hn
    · exact Nat.succ_ne_zero _
  · exact Nat.succ_ne_zero _

theorem addRating_reaches_write (db : DB) (u t : String) (r : Rat) (c : Option String)
    (ht : t ≠ "") (hu : u ≠ "") (hr : r ≠ 0) (hw : db.ratingWriteFails = false) :
    addRating db (some u) t r c
      = addRatingAfterWrite (upsertRatingRow db u t r c) u t r := by
  have hres : resolveUser (some u) db.currentUser = some u := by
    simp [resolveUser, hu]
  unfold addRating
  rw [if_neg ht, if_neg hr, hres]
  simp [hw]

theorem addRating_state (db : DB) (u t : String) (r : Rat) (c : Option String)
    (ht : t ≠ "") (hu : u ≠ "") (hr : r ≠ 0) (hw : db.ratingWriteFails = false) :
    (addRating db (some u) t r c).1.event_ratings
        = (upsertRatingRow db u t r c).event_ratings
    ∧ (addRating db (some u) t r c).1.ratingWriteFails = db.ratingWriteFails
    ∧ (addRating db (some u) t r c).1.nextRatingId
        = (upsertRatingRow db u t r c).nextRatingId := by
  rw [addRating_reaches_write db u t r c ht hu hr hw]
  have hs := addRatingAfterWrite_sameStores (upsertRatingRow db u t r c) u t r
  exact ⟨hs.2.1, hs.2.2.2.2.2.2.1.trans (upsertRatingRow_ratingWriteFails db u t r c),
    hs.2.2.2.1⟩

theorem upsertRatingRow_insert_of_no_pair (db : DB) (u t : String) (r : Rat)
    (c : Option String) (h0 : pairCount db.event_ratings u t = 0) :
    upsertRatingRow db u t r c = insertRatingRow db u t r c := by
  have hfind : db.event_ratings.find? (pairMatch u t) = none :=
    List.find?_eq_none.mpr (List.countP_eq_zero.mp h0)
  unfold upsertRatingRow
  rw [hfind]

theorem upsertRatingRow_event_ratings_update (db : DB) (u t : String)
    (e : RatingRow) (r : Rat) (c : Option String)
    (hfind : db.event_ratings.find? (pairMatch u t) = some e) (hne : e.id ≠ 0) :
    (upsertRatingRow db u t r c).event_ratings
      = db.event_ratings.map (fun x =>
          if x.id == e.id then { x with rating := r, comment := c } else x) := by
  unfold upsertRatingRow
  rw [hfind]
  simp [hne]

/-- C2: rating the same (user, event) pair twice leaves exactly one rating
row for the pair and the row holds the second value, and every sequence of
addRating calls preserves the at-most-one-row-per-pair invariant. -/
theorem C2_rating_upsert_no_duplicate
    (db : DB) (u t : String) (r1 r2 : Rat) (c1 c2 : Option String)
    (ht : t ≠ "") (hu : u ≠ "") (hr1 : r1 ≠ 0) (hr2 : r2 ≠ 0)
    (hw : db.ratingWriteFails = false) (hn : db.nextRatingId ≠ 0)
    (h0 : pairCount db.event_ratings u t = 0) :
    (((runRateCalls db [⟨some u, t, r1, c1⟩, ⟨some u, t, r2, c2⟩]).event_ratings.filter
        (pairMatch u t)).map (fun x => x.rating) = [r2]
      ∧ pairCount (runRateCalls db [⟨some u, t, r1, c1⟩,
          ⟨some u, t, r2, c2⟩]).event_ratings u t = 1)
    ∧ ∀ (d : DB) (calls : List RateCall), ratingsInv d →
        ratingsInv (runRateCalls d calls) := by
  constructor
  · have hrun : runRateCalls db [⟨some u, t, r1, c1⟩, ⟨some u, t, r2, c2⟩]
        = (addRating (addRating db (some u) t r1 c1).1 (some u) t r2 c2).1 := rfl
    have hst1 := addRating_state db u t r1 c1 ht hu hr1 hw
    have hins := upsertRatingRow_insert_of_no_pair db u t r1 c1 h0
    have hA1 : (addRating db (some u) t r1 c1).1.event_ratings
        = db.event_ratings ++ [freshRatingRow db u t r1 c1] := by
      rw [hst1.1, hins]
      rfl
    have hA2 : (addRating db (some u) t r1 c1).1.ratingWriteFails = false :=
      hst1.2.1.trans hw
    have hfind1 : (addRating db (some u) t r1 c1).1.event_ratings.find?
        (pairMatch u t) = some (freshRatingRow db u t r1 c1) := by
      rw [hA1, List.find?_append]
      have h1 : db.event_ratings.find? (pairMatch u t) = none :=
        List.find?_eq_none.mpr (List.countP_eq_zero.mp h0)
      rw [h1]
      simp [List.find?, pairMatch, freshRatingRow]
    have hst2 := addRating_state (addRating db (some u) t r1 c1).1 u t r2 c2
      ht hu hr2 hA2
    have hupd := upsertRatingRow_event_ratings_update
      (addRating db (some u) t r1 c1).1 u t (freshRatingRow db u t r1 c1)
      r2 c2 hfind1 hn
    have hC : (runRateCalls db [⟨some u, t, r1, c1⟩,
        ⟨some u, t, r2, c2⟩]).event_ratings
        = (db.event_ratings ++ [freshRatingRow db u t r1 c1]).map
          (fun x => if x.id == (freshRatingRow db u t r1 c1).id then
            { x with rating := r2, comment := c2 } else x) := by
      rw [hrun, hst2.1, hupd, hA1]
    rw [hC]
    have hcongr : (db.event_ratings ++ [freshRatingRow db u t r1 c1]).filter
        ((pairMatch u t) ∘ (fun x =>
          if x.id == (freshRatingRow db u t r1 c1).id then
            { x with rating := r2, comment := c2 } else x))
        = (db.event_ratings ++ [freshRatingRow db u t r1 c1]).filter
            (pairMatch u t) := by
      apply List.filter_congr
      intro a _
      exact pairMatch_update_invariant u t (freshRatingRow db u t r1 c1).id r2 c2 a
    have hfe : db.event_ratings.filter (pairMatch u t) = [] :=
      List.filter_eq_nil_iff.mpr (List.countP_eq_zero.mp h0)
    constructor
    · rw [List.filter_map, hcongr, List.filter_append, hfe]
      simp [pairMatch, freshRatingRow]
    · unfold pairCount
      rw [List.countP_eq_length_filter, List.filter_map, hcongr,
        List.filter_append, hfe]
      simp [pairMatch, freshRatingRow]
  · intro d calls hinv
    exact runRateCalls_ratingsInv calls d hinv

/-- Witness for C2 at a concrete input: user u1 rates event e1 with 2 and
then with 4 starting from the one-event store; one row with value 4 remains. -/
theorem C2_rating_upsert_no_duplicate_witness :
    ((runRateCalls dbOneEvent [⟨some "u1", "e1", 2, none⟩,
        ⟨some "u1", "e1", 4, none⟩]).event_ratings.filter
      (pairMatch "u1" "e1")).map (fun x => x.rating) = [4]
    ∧ pairCount (runRateCalls dbOneEvent [⟨some "u1", "e1", 2, none⟩,
        ⟨some "u1", "e1", 4, none⟩]).event_ratings "u1" "e1" = 1 :=
  (C2_rating_upsert_no_duplicate dbOneEvent "u1" "e1" 2 4 none none
    (by decide) (by decide) (by decide) (by decide) rfl (by decide) rfl).1

/-- C3: the preference delta a rating feeds into the ledger is exactly
(rating - 3) * weight with the default weight 1: a 3-star rating
contributes 0, a 5-star rating +2, a 1-star rating -2, and one
updateUserPreferences call carrying the delta addRating computes moves the
score of the tag by rating - 3. -/
theorem C3_rating_delta_centered
    (r w : Rat) (db : DB) (u tag : String)
    (hu : u ≠ "") (hp : db.prefsUpsertFails = false) :
    computePreferenceDelta r w = (r - 3) * w
    ∧ computePreferenceDelta 3 1 = 0
    ∧ computePreferenceDelta 5 1 = 2
    ∧ computePreferenceDelta 1 1 = -2
    ∧ prefScore (updateUserPreferences u [tag]
        (computePreferenceDelta r 1) db).1 u tag
      = prefScore db u tag + (r - 3) := by
  refine ⟨rfl, by norm_num [computePreferenceDelta],
    by norm_num [computePreferenceDelta],
    by norm_num [computePreferenceDelta], ?_⟩
  rw [updateUserPreferences_single u tag (computePreferenceDelta r 1) db hu hp]
  show prefScore (upsertPreference db u tag (computePreferenceDelta r 1)) u tag = _
  rw [upsertPreference_score_self]
  simp [computePreferenceDelta]

/-- Witness for C3 at a concrete input: a 5-star rating with weight 2 and
the single-tag ledger update on the empty store. -/
theorem C3_rating_delta_centered_witness :
    computePreferenceDelta 5 2 = (5 - 3) * 2
    ∧ computePreferenceDelta 3 1 = 0
    ∧ computePreferenceDelta 5 1 = 2
    ∧ computePreferenceDelta 1 1 = -2
    ∧ prefScore (updateUserPreferences "u1" ["music"]
        (computePreferenceDelta 5 1) emptyDB).1 "u1" "music"
      = prefScore emptyDB "u1" "music" + (5 - 3) :=
  C3_rating_delta_centered 5 2 emptyDB "u1" "music" (by decide) rfl

theorem foldl_add_eq_sum (init : Rat) (l : List Rat) :
    l.foldl (fun s r => s + r) init = init + l.sum := by
  induction l generalizing init with
  | nil => simp
  | cons x xs ih =>
    rw [List.foldl_cons, ih (init + x), List.sum_cons]
    ring

/-- C10: getEventById and fetchEvents decorate an event having no rating
rows with avgRating null and ratingsCount 0, and an event with one or more
rating rows with the arithmetic mean of the values and their count. -/
theorem C10_avg_rating_stats (db : DB) (e : EventRow) (hid : e.id ≠ "")
    (hfind : db.events.find? (fun x => x.id == e.id) = some e) :
    getEventById db e.id = .ok (statsOf db e)
    ∧ fetchEvents db = db.events.map (fun ev => statsOf db ev)
    ∧ eventAvgRating [] = none
    ∧ ∀ rs : List Rat, rs ≠ [] →
        eventAvgRating rs = some (rs.sum / (rs.length : Rat)) := by
  refine ⟨?_, rfl, rfl, ?_⟩
  · unfold getEventById
    rw [if_neg hid, hfind]
    rfl
  · intro rs hrs
    unfold eventAvgRating
    rw [if_neg (by simpa using hrs), foldl_add_eq_sum]
    simp

/-- Witness for C10 at a concrete input: event e1 with no rating rows gets
avgRating none and count 0, and the two values 2 and 4 average to 3. -/
theorem C10_avg_rating_stats_witness :
    getEventById dbOneEvent "e1"
      = .ok { event := eventE1, avgRating := none, ratingsCount := 0 }
    ∧ eventAvgRating [2, 4] = some (([2, 4] : List Rat).sum / (2 : Rat)) := by
  have h := C10_avg_rating_stats dbOneEvent eventE1 (by decide) rfl
  refine ⟨h.1.trans rfl, ?_⟩
  have h2 := h.2.2.2 [2, 4] (by decide)
  simpa using h2

theorem addRating_inserted_row (db : DB) (u t : String) (r : Rat)
    (c : Option String) (ht : t ≠ "") (hu : u ≠ "") (hr : r ≠ 0)
    (hw : db.ratingWriteFails = false)
    (h0 : pairCount db.event_ratings u t = 0) :
    ((addRating db (some u) t r c).1.event_ratings.filter (pairMatch u t)).map
      (fun x => x.rating) = [r] := by
  have hst := addRating_state db u t r c ht hu hr hw
  have hins := upsertRatingRow_insert_of_no_pair db u t r c h0
  rw [hst.1, hins]
  show (((db.event_ratings ++ [freshRatingRow db u t r c]).filter
    (pairMatch u t)).map (fun x => x.rating)) = [r]
  rw [List.filter_append, List.filter_eq_nil_iff.mpr (List.countP_eq_zero.mp h0)]
  simp [pairMatch, freshRatingRow]

/-- C4 counterexample: addRating accepts the out-of-range rating 6: the
call succeeds and a rating row holding 6 is persisted, where the claim
demands an InvalidRating failure with nothing persisted. -/
theorem C4_counterexample_rating_six_accepted :
    (addRating dbOneEvent (some "u1") "e1" 6 none).2.isOk = true
    ∧ (addRating dbOneEvent (some "u1") "e1" 6 none).1.event_ratings.map
        (fun x => x.rating) = [6] := by
  constructor <;> rfl

/-- C4 amended: addRating validates only the falsiness of the rating: a
zero or missing rating fails with the error "rating required" and changes
nothing, while any nonzero rating value, in range or not, integer or not,
is accepted and persisted verbatim in the rating row. -/
theorem C4_amended_only_falsy_rating_rejected
    (db : DB) (u t : String) (r : Rat) (c : Option String)
    (ht : t ≠ "") (hu : u ≠ "") (hr : r ≠ 0)
    (hw : db.ratingWriteFails = false)
    (h0 : pairCount db.event_ratings u t = 0) :
    addRating db (some u) t 0 c = (db, .error "rating required")
    ∧ ((addRating db (some u) t r c).1.event_ratings.filter
        (pairMatch u t)).map (fun x => x.rating) = [r] := by
  constructor
  · unfold addRating
    rw [if_neg ht, if_pos rfl]
  · exact addRating_inserted_row db u t r c ht hu hr hw h0

/-- Witness for C4 at a concrete input: rating 0 is rejected as required,
and the fractional out-of-range rating 13/2 is accepted and stored. -/
theorem C4_amended_only_falsy_rating_rejected_witness :
    addRating dbOneEvent (some "u1") "e1" 0 none
      = (dbOneEvent, .error "rating required")
    ∧ ((addRating dbOneEvent (some "u1") "e1" (13 / 2) none).1.event_ratings.filter
        (pairMatch "u1" "e1")).map (fun x => x.rating) = [13 / 2] :=
  C4_amended_only_falsy_rating_rejected dbOneEvent "u1" "e1" (13 / 2) none
    (by decide) (by decide) (by norm_num) rfl rfl

theorem callRecommendationFunction_obj (res : InvokeResult)
    (fields : List (String × JsonVal))
    (he : res.error = none) (hd : res.data = some (.obj fields)) :
    callRecommendationFunction res
      = (if !(isArray ((getField (.obj fields) "listings").getD JsonVal.null))
         then .error .malformedResponse else .ok (.obj fields)) := by
  unfold callRecommendationFunction
  rw [he, hd]
  simp [jsTruthy]

theorem getForYou_of_listings (res : InvokeResult)
    (fields : List (String × JsonVal)) (xs : List JsonVal)
    (he : res.error = none) (hd : res.data = some (.obj fields))
    (hl : getField (.obj fields) "listings" = some (.arr xs)) :
    callRecommendationFunction res = .ok (.obj fields)
    ∧ getForYou res = xs := by
  have h1 : callRecommendationFunction res = .ok (.obj fields) := by
    rw [callRecommendationFunction_obj res fields he hd, hl]
    simp [isArray]
  refine ⟨h1, ?_⟩
  unfold getForYou
  rw [h1]
  show (match getField (.obj fields) "listings" with
    | some (.arr cards) => cards
    | _ => []) = xs
  rw [hl]

/-- C5: with a transport-error-free invoke whose data is an object, the
gateway call fails with the malformed-response error whenever the listings
field is missing or fails Array.isArray, and succeeds returning exactly the
received card sequence whenever listings is an array. -/
theorem C5_listings_shape_validated (res : InvokeResult)
    (fields : List (String × JsonVal))
    (he : res.error = none) (hd : res.data = some (.obj fields)) :
    (∀ xs, getField (.obj fields) "listings" = some (.arr xs) →
      callRecommendationFunction res = .ok (.obj fields) ∧ getForYou res = xs)
    ∧ (∀ v, getField (.obj fields) "listings" = some v → isArray v = false →
        callRecommendationFunction res = .error .malformedResponse)
    ∧ (getField (.obj fields) "listings" = none →
        callRecommendationFunction res = .error .malformedResponse) := by
  refine ⟨?_, ?_, ?_⟩
  · intro xs hxs
    exact getForYou_of_listings res fields xs he hd hxs
  · intro v hv hvna
    rw [callRecommendationFunction_obj res fields he hd, hv]
    simp [hvna]
  · intro hnone
    rw [callRecommendationFunction_obj res fields he hd, hnone]
    simp [isArray]

/-- Witness for C5 at concrete inputs: the single-card response succeeds
returning its card, and a response without a listings field fails with the
malformed-response error. -/
theorem C5_listings_shape_validated_witness :
    callRecommendationFunction bareCardResponse
      = .ok (.obj [("listings", .arr [rawCard])])
    ∧ getForYou bareCardResponse = [rawCard]
    ∧ callRecommendationFunction { data := some (.obj []), error := none }
      = .error .malformedResponse := by
  have h1 := C5_listings_shape_validated bareCardResponse
    [("listings", .arr [rawCard])] rfl rfl
  have h2 := C5_listings_shape_validated
    { data := some (.obj []), error := none } [] rfl rfl
  exact ⟨(h1.1 [rawCard] rfl).1, (h1.1 [rawCard] rfl).2, h2.2.2 rfl⟩

/-- C8 counterexample: the gateway returns the engine cards verbatim: the
bare card with no fields comes back with its title and isAvailable fields
still absent, where the claim demands every card field be defaulted. -/
theorem C8_counterexample_no_normalization :
    getForYou bareCardResponse = [rawCard]
    ∧ getField rawCard "title" = none
    ∧ getField rawCard "isAvailable" = none := ⟨rfl, rfl, rfl⟩

/-- C8 amended: the gateway performs no per-card normalization: for a
well-formed response it returns the whole response object and the raw card
sequence exactly as received, absent card fields staying absent. -/
theorem C8_amended_cards_passed_through (res : InvokeResult)
    (fields : List (String × JsonVal)) (xs : List JsonVal)
    (he : res.error = none) (hd : res.data = some (.obj fields))
    (hl : getField (.obj fields) "listings" = some (.arr xs)) :
    getForYou res = xs := by
  exact (getForYou_of_listings res fields xs he hd hl).2

/-- Witness for C8 at a concrete input: the id-only card is returned
unchanged. -/
theorem C8_amended_cards_passed_through_witness :
    getForYou idCardResponse = [idOnlyCard] :=
  C8_amended_cards_passed_through idCardResponse
    [("listings", .arr [idOnlyCard])] [idOnlyCard] rfl rfl rfl

theorem upsertRatingRow_events (db : DB) (uid evt : String) (rt : Rat)
    (c : Option String) :
    (upsertRatingRow db uid evt rt c).events = db.events := by
  unfold upsertRatingRow insertRatingRow
  split
  · split <;> rfl
  · rfl

theorem upsertRatingRow_prefsUpsertFails (db : DB) (uid evt : String) (rt : Rat)
    (c : Option String) :
    (upsertRatingRow db uid evt rt c).prefsUpsertFails = db.prefsUpsertFails := by
  unfold upsertRatingRow insertRatingRow
  split
  · split <;> rfl
  · rfl

theorem addRating_prefs_failure_propagates (db : DB) (u t tag : String)
    (r : Rat) (c : Option String)
    (ht : t ≠ "") (hu : u ≠ "") (hr : r ≠ 0)
    (hw : db.ratingWriteFails = false) (hp : db.prefsUpsertFails = true)
    (hev : db.events.find? (fun e => e.id == t)
      = some { id := t, tags := some [tag], category := none }) :
    (addRating db (some u) t r c).2
      = .error "preference upsert failed" := by
  rw [addRating_reaches_write db u t r c ht hu hr hw]
  unfold addRatingAfterWrite
  rw [upsertRatingRow_events db u t r c, hev]
  have hupd : updateUserPreferences u [tag] (computePreferenceDelta r 1)
      (upsertRatingRow db u t r c)
      = (upsertRatingRow db u t r c, .error "preference upsert failed") := by
    unfold updateUserPreferences
    rw [if_neg hu]
    simp [upsertRatingRow_prefsUpsertFails, hp]
  show (match updateUserPreferences u ((some [tag]).getD
      (match (none : Option String) with | some cat => [cat] | none => []))
      (computePreferenceDelta r 1) (upsertRatingRow db u t r c) with
    | (db2, .error msg) => (db2, Except.error msg)
    | (db2, .ok _) => (db2, getEventById db2 t)).2
    = Except.error "preference upsert failed"
  rw [show ((some [tag]).getD (match (none : Option String) with
    | some cat => [cat] | none => [])) = [tag] from rfl, hupd]

/-- C6 counterexample: with the durable rating write succeeding and the
best-effort preference upsert failing, addRating persists the rating row
yet surfaces the best-effort failure to the caller as an error, where the
claim says the failure is swallowed and the caller sees success. -/
theorem C6_counterexample_prefs_failure_propagates :
    (addRating dbPrefsFail (some "u1") "e1" 5 none).2
      = .error "preference upsert failed"
    ∧ (addRating dbPrefsFail (some "u1") "e1" 5 none).1.event_ratings.map
        (fun x => x.rating) = [5] := ⟨rfl, rfl⟩

/-- C6 amended: in the listing-service rate path and both gateway
notification paths a best-effort failure is caught and logged and the
caller still gets the success result, but in the event-service addRating a
preference-ledger failure does propagate to the caller as an error, while
the already-persisted rating write is not rolled back. -/
theorem C6_amended_best_effort_policy
    (env : ListingEnv) (ie : Option String)
    (db : DB) (u t tag : String) (r : Rat) (c : Option String)
    (henv : env.ratingUpsertError = none)
    (ht : t ≠ "") (hu : u ≠ "") (hr : r ≠ 0)
    (hw : db.ratingWriteFails = false) (hp : db.prefsUpsertFails = true)
    (h0 : pairCount db.event_ratings u t = 0)
    (hev : db.events.find? (fun e => e.id == t)
      = some { id := t, tags := some [tag], category := none }) :
    (updateListingRating env).success = true
    ∧ triggerRecommendationUpdate env = .ok ()
    ∧ recordInteraction ie = .ok ()
    ∧ (addRating db (some u) t r c).2 = .error "preference upsert failed"
    ∧ ((addRating db (some u) t r c).1.event_ratings.filter
        (pairMatch u t)).map (fun x => x.rating) = [r] := by
  refine ⟨?_, ?_, ?_, ?_, ?_⟩
  · obtain ⟨re, ar, iv⟩ := env
    have hre : re = none := henv
    subst hre
    cases ar <;> cases iv <;> rfl
  · unfold triggerRecommendationUpdate
    split <;> rfl
  · unfold recordInteraction
    split <;> rfl
  · exact addRating_prefs_failure_propagates db u t tag r c ht hu hr hw hp hev
  · exact addRating_inserted_row db u t r c ht hu hr hw h0

/-- Witness for C6 at concrete inputs: the environment with failing
average recomputation and failing gateway invoke still yields success in
the listing path, while addRating on the store with a failing preference
upsert returns the error yet keeps the written row. -/
theorem C6_amended_best_effort_policy_witness :
    (updateListingRating listingEnvBestEffortFail).success = true
    ∧ triggerRecommendationUpdate listingEnvBestEffortFail = .ok ()
    ∧ recordInteraction (some "offline") = .ok ()
    ∧ (addRating dbPrefsFail (some "u2") "e1" 4 none).2
      = .error "preference upsert failed"
    ∧ ((addRating dbPrefsFail (some "u2") "e1" 4 none).1.event_ratings.filter
        (pairMatch "u2" "e1")).map (fun x => x.rating) = [4] :=
  C6_amended_best_effort_policy listingEnvBestEffortFail (some "offline")
    dbPrefsFail "u2" "e1" "music" 4 none rfl (by decide) (by decide)
    (by decide) rfl rfl rfl rfl

/-- C7: a storage-layer failure of the rating upsert itself surfaces to the
caller: addRating throws the error and leaves the store unchanged, and
updateListingRating reports success false, never a success result. -/
theorem C7_durable_write_failure_surfaces
    (env : ListingEnv) (msg : String) (db : DB) (u t : String) (r : Rat)
    (c : Option String) (henv : env.ratingUpsertError = some msg)
    (ht : t ≠ "") (hu : u ≠ "") (hr : r ≠ 0)
    (hw : db.ratingWriteFails = true) :
    addRating db (some u) t r c = (db, .error "rating write failed")
    ∧ (updateListingRating env).success = false := by
  constructor
  · have hres : resolveUser (some u) db.currentUser = some u := by
      simp [resolveUser, hu]
    unfold addRating
    rw [if_neg ht, if_neg hr, hres]
    simp [hw]
  · unfold updateListingRating
    rw [henv]

/-- Witness for C7 at concrete inputs: the failing-write store and the
failing-upsert listing environment. -/
theorem C7_durable_write_failure_surfaces_witness :
    addRating dbWriteFail (some "u1") "e1" 5 none
      = (dbWriteFail, .error "rating write failed")
    ∧ (updateListingRating listingEnvUpsertFail).success = false :=
  C7_durable_write_failure_surfaces listingEnvUpsertFail "insert failed"
    dbWriteFail "u1" "e1" 5 none rfl (by decide) (by decide) (by decide) rfl

/-- C9 counterexample: no weight lookup guards the interaction kinds: one
batch call inserts the unrecognized kind purchase without any failure, and
in the same call persists kind share with the caller-supplied weight 99 in
place of the share weight of the claimed table, so the weights are not
drawn from a single weightOf data table and no UnknownInteractionKind
error exists. -/
theorem C9_counterexample_no_kind_lookup :
    (trackBatch emptyIDB [⟨"u1", "L1", none, "purchase", 7, none⟩,
        ⟨"u1", "L1", none, "share", 99, none⟩]).2 = true
    ∧ (trackBatch emptyIDB [⟨"u1", "L1", none, "purchase", 7, none⟩,
        ⟨"u1", "L1", none, "share", 99, none⟩]).1.user_interactions.map
        (fun i => (i.interaction_type, i.weight))
      = [("purchase", 7), ("share", 99)]
    ∧ specWeightOf "purchase" = none
    ∧ specWeightOf "share" = some 5 := ⟨rfl, rfl, rfl, rfl⟩

/-- C9 amended: the kind-to-weight policy exists with exactly the claimed
values but is hard-coded per tracking method of InteractionService rather
than implemented as a single weightOf data table: trackView persists weight
1, trackClick 2, trackMessage 4, trackShare 5, trackSave 3, trackBooking
10, and trackSwipe -2 for left and 1 for right, each matching the spec
table entry for its kind; and no UnknownInteractionKind failure exists:
the batch path inserts any caller-supplied kind and weight without a
lookup. -/
theorem C9_amended_weights_hardcoded_per_method
    (db : IDB) (u L : String) (p : Option String) (hok : db.insertFails = false) :
    ((trackView db u L p).1.user_interactions
        = db.user_interactions ++ [interactionRow u L p "view" 1 none]
      ∧ specWeightOf "view" = some 1)
    ∧ ((trackClick db u L p).1.user_interactions
        = db.user_interactions ++ [interactionRow u L p "click" 2 none]
      ∧ specWeightOf "click" = some 2)
    ∧ ((trackMessage db u L p).1.user_interactions
        = db.user_interactions ++ [interactionRow u L p "message" 4 none]
      ∧ specWeightOf "message" = some 4)
    ∧ ((trackShare db u L p).1.user_interactions
        = db.user_interactions ++ [interactionRow u L p "share" 5 none]
      ∧ specWeightOf "share" = some 5)
    ∧ ((trackSave db u L p).1.user_interactions
        = db.user_interactions ++ [interactionRow u L p "save" 3 none]
      ∧ specWeightOf "save" = some 3)
    ∧ ((trackBooking db u L p).1.user_interactions
        = db.user_interactions ++ [interactionRow u L p "book" 10 none]
      ∧ specWeightOf "book" = some 10)
    ∧ ((trackSwipe db u L "left" p).1.user_interactions
        = db.user_interactions ++ [interactionRow u L p "swipe_left" (-2) none]
      ∧ specWeightOf "swipe-left" = some (-2))
    ∧ ((trackSwipe db u L "right" p).1.user_interactions
        = db.user_interactions ++ [interactionRow u L p "swipe_right" 1 none]
      ∧ specWeightOf "swipe-right" = some 1)
    ∧ ∀ (kind : String) (w : Rat),
        (trackBatch db [⟨u, L, p, kind, w, none⟩]).2 = true := by
  refine ⟨⟨?_, rfl⟩, ⟨?_, rfl⟩, ⟨?_, rfl⟩, ⟨?_, rfl⟩, ⟨?_, rfl⟩, ⟨?_, rfl⟩,
    ⟨?_, rfl⟩, ⟨?_, rfl⟩, ?_⟩
  · simp [trackView, insertInteraction, hok]
  · simp [trackClick, insertInteraction, hok]
  · simp [trackMessage, insertInteraction, hok]
  · simp [trackShare, insertInteraction, hok]
  · simp [trackSave, insertInteraction, hok]
  · simp [trackBooking, insertInteraction, hok]
  · simp [trackSwipe, insertInteraction, hok]
  · simp [trackSwipe, insertInteraction, hok]
  · intro kind w
    simp [trackBatch, hok]

/-- Witness for C9 at a concrete input: trackView on the empty interactions
store persists the view row with weight 1, the spec table weight for book
is 10, and a batch insert of an arbitrary kind succeeds. -/
theorem C9_amended_weights_hardcoded_per_method_witness :
    ((trackView emptyIDB "u1" "L1" none).1.user_interactions
      = emptyIDB.user_interactions ++ [interactionRow "u1" "L1" none "view" 1 none])
    ∧ specWeightOf "book" = some 10
    ∧ (trackBatch emptyIDB [⟨"u1", "L1", none, "dismiss", 0, none⟩]).2 = true := by
  have h := C9_amended_weights_hardcoded_per_method emptyIDB "u1" "L1" none rfl
  obtain ⟨hv, hc, hm, hs, hsv, hb, hsl, hsr, hbatch⟩ := h
  exact ⟨hv.1, hb.2, hbatch "dismiss" 0⟩
